import Mathlib

/-!
Verification development for the rezzy reservation backend.

The Python source (`app/db/database.py`, `main.py`) is shallowly embedded:
the relational store is a record of lists (rows in insertion order, which is
the order `SELECT` without `ORDER BY` returns them in this model), times of
day are minutes after midnight as naturals, dates are naturals counting days
from a Monday (so Python's `date.weekday()` is `d % 7`), and identifiers are
naturals drawn from per-entity counters.  Character-level operations on
customer names (`str.lower`, `str.strip`) are modelled on ASCII.  Free-text
notes columns, which no property depends on, are omitted.  Each Python
function used by a claim is translated to an executable Lean definition of
the same name.
-/

namespace Rezzy

/-- Reservation status: the closed enum of the source. -/
inductive RStatus where
  | pending
  | confirmed
  | seated
  | completed
  | cancelled
  | no_show
deriving DecidableEq, Repr

/-- Embeds `r.status NOT IN ('cancelled', 'no_show')` from the SQL queries. -/
def RStatus.isActive : RStatus → Bool
  | .cancelled => false
  | .no_show => false
  | _ => true

/-- A row of the `tables` relation.  The source stores `table_number` as a
string; only its linear order matters here, so it is modelled as a natural
number. -/
structure RTable where
  id : Nat
  table_number : Nat
  min_capacity : Nat
  max_capacity : Nat
  is_shared : Bool
deriving DecidableEq, Repr

/-- A row of the `chairs` relation. -/
structure Chair where
  id : Nat
  table_id : Nat
deriving DecidableEq, Repr

/-- A row of the `customers` relation. -/
structure Customer where
  id : Nat
  name : String
  email : Option String
  phone : Option String
deriving DecidableEq, Repr

/-- A row of the `reservations` relation.  `start_time` is minutes after
midnight, `rdate` a day number. -/
structure Reservation where
  id : Nat
  customer_id : Nat
  party_size : Nat
  rdate : Nat
  start_time : Nat
  duration_minutes : Nat
  status : RStatus
deriving DecidableEq, Repr

/-- A row of the `table_assignments` relation. -/
structure Assignment where
  reservation_id : Nat
  table_id : Nat
deriving DecidableEq, Repr

/-- A row of the `restaurant_hours` relation. -/
structure HoursRow where
  day_of_week : Nat
  open_time : Nat
  close_time : Nat
  last_reservation_time : Nat
deriving DecidableEq, Repr

/-- A row of the `special_hours` relation.  When `is_closed` is set the time
columns are never read by the validity check, so they are kept as plain
naturals. -/
structure SpecialRow where
  sdate : Nat
  is_closed : Bool
  open_time : Nat
  close_time : Nat
  last_reservation_time : Nat
deriving DecidableEq, Repr

/-- The relational store, with the id counters that model fresh key
generation. -/
structure DB where
  tables : List RTable
  chairs : List Chair
  customers : List Customer
  reservations : List Reservation
  assignments : List Assignment
  hours : List HoursRow
  specialHours : List SpecialRow
  nextTableId : Nat
  nextChairId : Nat
  nextCustomerId : Nat
  nextReservationId : Nat
deriving DecidableEq, Repr

/-- Both Python's `(datetime.combine(datetime.min, start) + timedelta(minutes=d)).time()`
and Postgres' `time + make_interval(mins => d)` wrap past midnight. -/
def wrapTime (start dur : Nat) : Nat := (start + dur) % 1440

/-- The three-clause overlap disjunction used verbatim (twice) in the
`get_available_tables` SQL, with `rs, re` the reservation's start/end and
`qs, qe` the requested window's start/end. -/
def overlap3 (rs re qs qe : Nat) : Bool :=
  (rs ≤ qs && re > qs) || (rs < qe && re ≥ qe) || (qs ≤ rs && qe ≥ re)

/-- The two-clause half-open interval overlap from the specification. -/
def overlap2 (rs re qs qe : Nat) : Bool :=
  rs < qe && qs < re

/-- Holds when a reservation row matches the `WHERE` clause of the two
overlap subqueries of `get_available_tables`: same date, active status, and
its window overlaps the requested one. -/
def matchesWindow (r : Reservation) (d qs qe : Nat) : Bool :=
  r.rdate == d && r.status.isActive &&
    overlap3 r.start_time (wrapTime r.start_time r.duration_minutes) qs qe

/-- The `booked_tables` CTE: table ids having some assignment whose
reservation matches the requested window. -/
def bookedTables (s : DB) (d qs qe : Nat) : List Nat :=
  (s.assignments.filter (fun a =>
    s.reservations.any (fun r => r.id == a.reservation_id && matchesWindow r d qs qe))).map
    (·.table_id)

/-- The `SUM(r.party_size)` of the `LEFT JOIN` subquery, grouped on one
table: every assignment row of the table is joined with every reservation
row of matching id that matches the window, and party sizes are summed
(`COALESCE` turns the empty join into 0). -/
def sharedLoad (s : DB) (tid : Nat) (d qs qe : Nat) : Nat :=
  ((s.assignments.filter (fun a => a.table_id == tid)).map (fun a =>
    ((s.reservations.filter (fun r =>
      r.id == a.reservation_id && matchesWindow r d qs qe)).map (·.party_size)).sum)).sum

/-- The sum of the party sizes of the reservations assigned to a table that
match the requested window, each reservation counted once — the quantity the
specification's shared-capacity rule speaks about. -/
def overlappingPartySum (s : DB) (tid : Nat) (d qs qe : Nat) : Nat :=
  ((s.reservations.filter (fun r => matchesWindow r d qs qe &&
    s.assignments.any (fun a => a.reservation_id == r.id && a.table_id == tid))).map
    (·.party_size)).sum

/-- Embeds `ABS(t.min_capacity - $4)` on naturals. -/
def natAbsDiff (a b : Nat) : Nat := if a ≤ b then b - a else a - b

/-- The boolean order realising `ORDER BY ABS(t.min_capacity - $4), t.table_number`. -/
def availLE (p : Nat) (a b : RTable) : Bool :=
  natAbsDiff a.min_capacity p < natAbsDiff b.min_capacity p ||
    (natAbsDiff a.min_capacity p == natAbsDiff b.min_capacity p &&
      a.table_number ≤ b.table_number)

/-- Embeds `Database.get_available_tables`: the `WHERE` clause (not fully
booked or shared, and the party fits between min and max capacity), the
`HAVING` clause (non-shared, or enough remaining shared capacity, computed
on integers as in SQL), and the `ORDER BY`. -/
def get_available_tables (s : DB) (party_size d start_time dur : Nat) : List RTable :=
  let qe := wrapTime start_time dur
  let booked := bookedTables s d start_time qe
  List.insertionSort (fun a b => availLE party_size a b = true)
    (s.tables.filter (fun t =>
      (!(booked.contains t.id) || t.is_shared) &&
      (t.min_capacity ≤ party_size && party_size ≤ t.max_capacity) &&
      (!t.is_shared ||
        ((t.max_capacity : Int) - (sharedLoad s t.id d start_time qe : Int) ≥ (party_size : Int)))))

/-- Embeds `Database.is_valid_reservation_time`: a special-hours row for the
date is authoritative (closed, or its triple); otherwise the weekday row is
used; no weekday row means closed. -/
def is_valid_reservation_time (s : DB) (d start_time dur : Nat) : Bool :=
  let endT := wrapTime start_time dur
  match s.specialHours.find? (fun row => row.sdate == d) with
  | some row =>
    if row.is_closed then false
    else if start_time < row.open_time then false
    else if start_time > row.last_reservation_time then false
    else if endT > row.close_time then false
    else true
  | none =>
    match s.hours.find? (fun row => row.day_of_week == d % 7) with
    | none => false
    | some row =>
      if start_time < row.open_time then false
      else if start_time > row.last_reservation_time then false
      else if endT > row.close_time then false
      else true

/-- The operating-hours resolution procedure as the specification words it:
the special-hours row for the date when one exists (closed days resolve to
nothing), otherwise the weekly row for the date's weekday; the result is the
effective `(open, last_reservation, close)` triple. -/
def resolveHoursSpec (s : DB) (d : Nat) : Option (Nat × Nat × Nat) :=
  match s.specialHours.find? (fun row => row.sdate == d) with
  | some row =>
    if row.is_closed then none
    else some (row.open_time, row.last_reservation_time, row.close_time)
  | none =>
    match s.hours.find? (fun row => row.day_of_week == d % 7) with
    | none => none
    | some row => some (row.open_time, row.last_reservation_time, row.close_time)

/-! ### MD5, as used by `hashlib.md5` for the placeholder contact address -/

/-- Reduction modulo `2^32`, the word size of MD5. -/
def mask32 (x : Nat) : Nat := x % 4294967296

/-- Bitwise complement on 32-bit words. -/
def not32 (x : Nat) : Nat := 4294967295 ^^^ x

/-- Left rotation of a 32-bit word. -/
def rotl32 (x s : Nat) : Nat := mask32 (x <<< s) ||| (x >>> (32 - s))

/-- The MD5 sine-derived constant table `K`. -/
def md5K : List Nat :=
  [0xd76aa478, 0xe8c7b756, 0x242070db, 0xc1bdceee,
   0xf57c0faf, 0x4787c62a, 0xa8304613, 0xfd469501,
   0x698098d8, 0x8b44f7af, 0xffff5bb1, 0x895cd7be,
   0x6b901122, 0xfd987193, 0xa679438e, 0x49b40821,
   0xf61e2562, 0xc040b340, 0x265e5a51, 0xe9b6c7aa,
   0xd62f105d, 0x02441453, 0xd8a1e681, 0xe7d3fbc8,
   0x21e1cde6, 0xc33707d6, 0xf4d50d87, 0x455a14ed,
   0xa9e3e905, 0xfcefa3f8, 0x676f02d9, 0x8d2a4c8a,
   0xfffa3942, 0x8771f681, 0x6d9d6122, 0xfde5380c,
   0xa4beea44, 0x4bdecfa9, 0xf6bb4b60, 0xbebfbc70,
   0x289b7ec6, 0xeaa127fa, 0xd4ef3085, 0x04881d05,
   0xd9d4d039, 0xe6db99e5, 0x1fa27cf8, 0xc4ac5665,
   0xf4292244, 0x432aff97, 0xab9423a7, 0xfc93a039,
   0x655b59c3, 0x8f0ccc92, 0xffeff47d, 0x85845dd1,
   0x6fa87e4f, 0xfe2ce6e0, 0xa3014314, 0x4e0811a1,
   0xf7537e82, 0xbd3af235, 0x2ad7d2bb, 0xeb86d391]

/-- The MD5 per-round shift table. -/
def md5S : List Nat :=
  [7, 12, 17, 22, 7, 12, 17, 22, 7, 12, 17, 22, 7, 12, 17, 22,
   5, 9, 14, 20, 5, 9, 14, 20, 5, 9, 14, 20, 5, 9, 14, 20,
   4, 11, 16, 23, 4, 11, 16, 23, 4, 11, 16, 23, 4, 11, 16, 23,
   6, 10, 15, 21, 6, 10, 15, 21, 6, 10, 15, 21, 6, 10, 15, 21]

/-- Little-endian decomposition of a natural into `w` bytes. -/
def toLEBytes (w n : Nat) : List Nat := (List.range w).map (fun i => (n >>> (8 * i)) % 256)

/-- The `j`-th little-endian 32-bit word of a 64-byte chunk. -/
def wordAt (chunk : List Nat) (j : Nat) : Nat :=
  chunk.getD (4 * j) 0 + 256 * chunk.getD (4 * j + 1) 0 +
    65536 * chunk.getD (4 * j + 2) 0 + 16777216 * chunk.getD (4 * j + 3) 0

/-- MD5 padding: a `0x80` byte, zeros to 56 mod 64, then the bit length as
eight little-endian bytes. -/
def md5Pad (msg : List Nat) : List Nat :=
  let len := msg.length
  let zeros := (56 + 64 - (len + 1) % 64) % 64
  msg ++ [128] ++ List.replicate zeros 0 ++ toLEBytes 8 (len * 8 % 18446744073709551616)

/-- Splits a byte list into chunks of 64; the fuel argument is structural
and any fuel at least the list length is enough. -/
def chunksOf64Go : Nat → List Nat → List (List Nat)
  | _, [] => []
  | 0, _ => []
  | fuel + 1, x :: xs => ((x :: xs).take 64) :: chunksOf64Go fuel ((x :: xs).drop 64)

/-- Splits a byte list into chunks of 64. -/
def chunksOf64 (l : List Nat) : List (List Nat) := chunksOf64Go l.length l

/-- One of the 64 MD5 rounds. -/
def md5Round (chunk : List Nat) (st : Nat × Nat × Nat × Nat) (i : Nat) : Nat × Nat × Nat × Nat :=
  let (a, b, c, d) := st
  let f :=
    if i < 16 then (b &&& c) ||| (not32 b &&& d)
    else if i < 32 then (d &&& b) ||| (not32 d &&& c)
    else if i < 48 then b ^^^ c ^^^ d
    else c ^^^ (b ||| not32 d)
  let g :=
    if i < 16 then i
    else if i < 32 then (5 * i + 1) % 16
    else if i < 48 then (3 * i + 5) % 16
    else (7 * i) % 16
  let fv := mask32 (f + a + md5K.getD i 0 + wordAt chunk g)
  (d, mask32 (b + rotl32 fv (md5S.getD i 0)), b, c)

/-- Processes one 64-byte chunk, updating the running state. -/
def md5ProcessChunk (st : Nat × Nat × Nat × Nat) (chunk : List Nat) : Nat × Nat × Nat × Nat :=
  let r := (List.range 64).foldl (md5Round chunk) st
  (mask32 (st.1 + r.1), mask32 (st.2.1 + r.2.1), mask32 (st.2.2.1 + r.2.2.1),
    mask32 (st.2.2.2 + r.2.2.2))

/-- The 16-byte MD5 digest of a byte list. -/
def md5Bytes (msg : List Nat) : List Nat :=
  let r := (chunksOf64 (md5Pad msg)).foldl md5ProcessChunk
    (0x67452301, 0xefcdab89, 0x98badcfe, 0x10325476)
  toLEBytes 4 r.1 ++ toLEBytes 4 r.2.1 ++ toLEBytes 4 r.2.2.1 ++ toLEBytes 4 r.2.2.2

/-- Lower-case hexadecimal digit. -/
def hexDigit (n : Nat) : Char := if n < 10 then Char.ofNat (48 + n) else Char.ofNat (87 + n)

/-- Two hexadecimal characters of one byte, high nibble first. -/
def byteToHex (b : Nat) : List Char := [hexDigit (b / 16), hexDigit (b % 16)]

/-- Embeds `hashlib.md5(data).hexdigest()`. -/
def md5Hex (msg : List Nat) : String := String.mk ((md5Bytes msg).map byteToHex).flatten

/-! ### Python string operations used for the placeholder contact -/

/-- Embeds ASCII `str.lower`, character by character. -/
def lowerChar (c : Char) : Char :=
  match c with
  | 'A' => 'a' | 'B' => 'b' | 'C' => 'c' | 'D' => 'd' | 'E' => 'e' | 'F' => 'f'
  | 'G' => 'g' | 'H' => 'h' | 'I' => 'i' | 'J' => 'j' | 'K' => 'k' | 'L' => 'l'
  | 'M' => 'm' | 'N' => 'n' | 'O' => 'o' | 'P' => 'p' | 'Q' => 'q' | 'R' => 'r'
  | 'S' => 's' | 'T' => 't' | 'U' => 'u' | 'V' => 'v' | 'W' => 'w' | 'X' => 'x'
  | 'Y' => 'y' | 'Z' => 'z' | other => other

/-- The ASCII whitespace characters removed by `str.strip`. -/
def isPySpace (c : Char) : Bool :=
  c == ' ' || c == '\t' || c == '\n' || c == '\r' || c.toNat == 11 || c.toNat == 12

/-- Embeds `str.lower` on ASCII strings. -/
def pyLower (s : String) : String := String.mk (s.data.map lowerChar)

/-- Removal of leading and trailing whitespace from a character list. -/
def stripChars (l : List Char) : List Char :=
  ((l.dropWhile isPySpace).reverse.dropWhile isPySpace).reverse

/-- Embeds `str.strip()` (no argument: whitespace). -/
def pyStrip (s : String) : String := String.mk (stripChars s.data)

/-- UTF-8 encoding of one character. -/
def utf8EncodeChar (c : Char) : List Nat :=
  let n := c.toNat
  if n < 128 then [n]
  else if n < 2048 then [192 + n / 64, 128 + n % 64]
  else if n < 65536 then [224 + n / 4096, 128 + (n / 64) % 64, 128 + n % 64]
  else [240 + n / 262144, 128 + (n / 4096) % 64, 128 + (n / 64) % 64, 128 + n % 64]

/-- Embeds `str.encode()` (UTF-8). -/
def utf8Encode (s : String) : List Nat := (s.data.map utf8EncodeChar).flatten

/-- The placeholder address built by `create_reservation`:
`f"guest-{hashlib.md5(name.lower().strip().encode()).hexdigest()[:8]}@restaurant.local"`.
The `[:8]` slice is taken on the character list of the hex digest. -/
def placeholderEmail (name : String) : String :=
  "guest-" ++ String.mk ((md5Hex (utf8Encode (pyStrip (pyLower name)))).data.take 8) ++
    "@restaurant.local"

/-! ### Booking: `Database.create_reservation` and its endpoint -/

/-- The customer payload of a booking request. -/
structure CustomerData where
  name : String
  email : Option String
  phone : Option String
deriving DecidableEq, Repr

/-- Python truthiness of an optional contact field: absent and the empty
string are both falsy. -/
def hasVal : Option String → Bool
  | none => false
  | some s => !(s == "")

/-- The contact-resolution step at the top of `Database.create_reservation`:
with no email, no phone, and a party under six, the placeholder address is
written into the customer data. -/
def resolveContact (cd : CustomerData) (party_size : Nat) : CustomerData :=
  if !(hasVal cd.email) && !(hasVal cd.phone) && party_size < 6 then
    { cd with email := some (placeholderEmail cd.name) }
  else cd

/-- A booking request as the `POST /reservations` endpoint receives it. -/
structure BookingRequest where
  customer : CustomerData
  party_size : Nat
  rdate : Nat
  start_time : Nat
  duration_minutes : Nat
  status : RStatus
  table_ids : List Nat
deriving DecidableEq, Repr

/-- Customer dedup of `Database.create_reservation`: lookup by email when
truthy, then by phone when truthy. -/
def findCustomerId (s : DB) (cd : CustomerData) : Option Nat :=
  let byEmail :=
    if hasVal cd.email then (s.customers.find? (fun c => c.email == cd.email)).map (·.id)
    else none
  match byEmail with
  | some i => some i
  | none =>
    if hasVal cd.phone then (s.customers.find? (fun c => c.phone == cd.phone)).map (·.id)
    else none

/-- Embeds the transaction of `Database.create_reservation`: resolve contact,
dedup or insert the customer, insert the reservation row, insert one
assignment per requested table.  Returns the new state and the reservation
id. -/
def db_create_reservation (s : DB) (req : BookingRequest) : DB × Nat :=
  let cd := resolveContact req.customer req.party_size
  let found := findCustomerId s cd
  let cid := match found with
    | some i => i
    | none => s.nextCustomerId
  let newCust : Customer := { id := s.nextCustomerId, name := cd.name, email := cd.email, phone := cd.phone }
  let s1 := match found with
    | some _ => s
    | none =>
      { s with customers := s.customers ++ [newCust], nextCustomerId := s.nextCustomerId + 1 }
  let rid := s1.nextReservationId
  let newRes : Reservation := { id := rid, customer_id := cid, party_size := req.party_size, rdate := req.rdate, start_time := req.start_time, duration_minutes := req.duration_minutes, status := req.status }
  let newAssignments := req.table_ids.map (fun tid => { reservation_id := rid, table_id := tid : Assignment })
  ({ s1 with reservations := s1.reservations ++ [newRes], assignments := s1.assignments ++ newAssignments, nextReservationId := rid + 1 }, rid)

/-- The per-table availability check of the `POST /reservations` endpoint:
every requested table id must appear in `get_available_tables`. -/
def validateBookingTables (s : DB) (req : BookingRequest) : Bool :=
  req.table_ids.all (fun tid =>
    ((get_available_tables s req.party_size req.rdate req.start_time
      req.duration_minutes).map (·.id)).contains tid)

/-- Errors surfaced by the HTTP layer. -/
inductive ApiError where
  | invalidTime
  | tableUnavailable
  | notFound
  | internalError
deriving DecidableEq, Repr

/-- Embeds the `POST /reservations` endpoint (`main.create_reservation`):
validity check, table availability check, then the database transaction.
The two checks read the state before the transaction runs — nothing is
re-validated inside it. -/
def endpoint_create_reservation (s : DB) (req : BookingRequest) :
    Except ApiError (DB × Nat) :=
  if !(is_valid_reservation_time s req.rdate req.start_time req.duration_minutes) then
    .error .invalidTime
  else if !(validateBookingTables s req) then .error .tableUnavailable
  else .ok (db_create_reservation s req)

/-! ### `get_reservation_by_id` and the Python default-argument defect -/

/-- The value bound to the `conn` parameter of `get_reservation_by_id`: the
caller passes `None`, a real connection, or nothing — and the declared
default is the typing expression `Optional[Connection]` itself, a distinct
truthy object. -/
inductive PyConnArg where
  | pynone
  | typingOptionalConnection
  | conn (handle : Nat)
deriving DecidableEq, Repr

/-- Python truthiness: `None` is falsy; connection objects and typing
expressions are truthy. -/
def PyConnArg.truthy : PyConnArg → Bool
  | .pynone => false
  | _ => true

/-- Python exceptions reaching the model. -/
inductive PyError where
  | attributeError
  | valueError
deriving DecidableEq, Repr

/-- A full reservation record: the joined customer and the assigned tables. -/
structure ResFull where
  reservation : Reservation
  customer : Customer
  rtables : List RTable
deriving DecidableEq, Repr

/-- The two queries inside `get_reservation_by_id`, run on a real
connection: reservation joined with its customer, plus the assigned
tables. -/
def fetchReservationFull (s : DB) (rid : Nat) : Option ResFull :=
  match s.reservations.find? (fun r => r.id == rid) with
  | none => none
  | some r =>
    match s.customers.find? (fun c => c.id == r.customer_id) with
    | none => none
    | some c =>
      let ts := (s.assignments.filter (fun a => a.reservation_id == rid)).filterMap
        (fun a => s.tables.find? (fun t => t.id == a.table_id))
      some { reservation := r, customer := c, rtables := ts }

/-- Embeds `Database.get_reservation_by_id`.  `use_provided_conn` is
`conn is not None`; `conn or pool.acquire()` keeps any truthy argument; the
queries then require an actual connection object, else the call raises
`AttributeError`.  The boolean records whether the pool was read. -/
def get_reservation_by_id (s : DB) (rid : Nat) (connArg : PyConnArg) :
    Except PyError (Option ResFull) × Bool :=
  let usedPool := !connArg.truthy
  let c := if connArg.truthy then connArg else PyConnArg.conn 0
  match c with
  | .conn _ => (.ok (fetchReservationFull s rid), usedPool)
  | _ => (.error .attributeError, usedPool)

/-- Embeds `Database.update_reservation_status`: the `UPDATE` commits on its
own (no transaction), then the row is re-fetched through
`get_reservation_by_id` with its defaulted `conn` argument. -/
def update_reservation_status (s : DB) (rid : Nat) (st : RStatus) :
    DB × Except PyError (Option ResFull) :=
  if s.reservations.any (fun r => r.id == rid) then
    let rs := s.reservations.map (fun r => if r.id == rid then { r with status := st } else r)
    let s' := { s with reservations := rs }
    (s', (get_reservation_by_id s' rid .typingOptionalConnection).1)
  else (s, .ok none)

/-- Embeds the `GET /reservations/{id}` endpoint, which calls
`get_reservation_by_id` without a connection. -/
def endpoint_get_reservation (s : DB) (rid : Nat) : Except ApiError ResFull :=
  match (get_reservation_by_id s rid .typingOptionalConnection).1 with
  | .error _ => .error .internalError
  | .ok none => .error .notFound
  | .ok (some r) => .ok r

/-! ### Reservation update -/

/-- A partial-update request for `PUT /reservations/{id}`. -/
structure UpdateReq where
  party_size : Option Nat
  rdate : Option Nat
  start_time : Option Nat
  duration_minutes : Option Nat
  status : Option RStatus
  table_ids : Option (List Nat)
deriving DecidableEq, Repr

/-- Application of the supplied fields to a reservation row. -/
def applyResUpdate (r : Reservation) (u : UpdateReq) : Reservation :=
  { r with
    party_size := u.party_size.getD r.party_size,
    rdate := u.rdate.getD r.rdate,
    start_time := u.start_time.getD r.start_time,
    duration_minutes := u.duration_minutes.getD r.duration_minutes,
    status := u.status.getD r.status }

/-- Embeds `Database.update_reservation`: `ValueError` when nothing is
supplied; otherwise one transaction updates the supplied fields, replaces
the assignments when `table_ids` is given, and re-fetches the row through
`get_reservation_by_id` with its defaulted `conn` argument — which raises,
rolling the whole transaction back. -/
def db_update_reservation (s : DB) (rid : Nat) (u : UpdateReq) :
    DB × Except PyError (Option ResFull) :=
  let hasFields := u.party_size.isSome || u.rdate.isSome || u.start_time.isSome ||
    u.duration_minutes.isSome || u.status.isSome
  if !hasFields && u.table_ids.isNone then (s, .error .valueError)
  else if hasFields && !(s.reservations.any (fun r => r.id == rid)) then (s, .ok none)
  else
    let s' := { s with
      reservations := s.reservations.map
        (fun r => if r.id == rid then applyResUpdate r u else r),
      assignments := match u.table_ids with
        | none => s.assignments
        | some tids =>
          s.assignments.filter (fun a => !(a.reservation_id == rid)) ++
            tids.map (fun tid => { reservation_id := rid, table_id := tid }) }
    match (get_reservation_by_id s' rid .typingOptionalConnection).1 with
    | .error e => (s, .error e)
    | .ok r => (s', .ok r)

/-- The availability check of the update endpoint: each requested table must
be in `get_available_tables` for the effective parameters, or among the
reservation's currently assigned tables. -/
def checkTablesForUpdate (s : DB) (current : ResFull)
    (party_size check_date check_time check_dur : Nat) (tids : List Nat) : Bool :=
  tids.all (fun tid =>
    ((get_available_tables s party_size check_date check_time check_dur).map (·.id) ++
      current.rtables.map (·.id)).contains tid)

/-- Embeds the `PUT /reservations/{id}` endpoint
(`main.update_reservation`): it first re-reads the current reservation
through `get_reservation_by_id` without a connection argument; validity and
availability are only checked when a time field changes; finally
`Database.update_reservation` runs. -/
def endpoint_update_reservation (s : DB) (rid : Nat) (u : UpdateReq) :
    Except ApiError (DB × ResFull) :=
  match (get_reservation_by_id s rid .typingOptionalConnection).1 with
  | .error _ => .error .internalError
  | .ok none => .error .notFound
  | .ok (some current) =>
    let proceed : Except ApiError (DB × ResFull) :=
      match db_update_reservation s rid u with
      | (_, .error _) => .error .internalError
      | (_, .ok none) => .error .notFound
      | (s', .ok (some r)) => .ok (s', r)
    let time_change := u.rdate.isSome || u.start_time.isSome || u.duration_minutes.isSome
    if time_change then
      let check_date := u.rdate.getD current.reservation.rdate
      let check_time := u.start_time.getD current.reservation.start_time
      let check_dur := u.duration_minutes.getD current.reservation.duration_minutes
      if !(is_valid_reservation_time s check_date check_time check_dur) then
        .error .invalidTime
      else
        match u.table_ids with
        | some tids =>
          if checkTablesForUpdate s current (u.party_size.getD current.reservation.party_size)
              check_date check_time check_dur tids then proceed
          else .error .tableUnavailable
        | none => proceed
    else proceed

/-! ### Tables and chairs -/

/-- The payload of `POST /tables`. -/
structure TableData where
  table_number : Nat
  min_capacity : Nat
  max_capacity : Nat
  is_shared : Bool
deriving DecidableEq, Repr

/-- Embeds `Database.create_table`: insert the table row, then insert
`max_capacity` chair rows for it. -/
def create_table (s : DB) (td : TableData) : DB × Nat :=
  let tid := s.nextTableId
  let newTable : RTable := { id := tid, table_number := td.table_number, min_capacity := td.min_capacity, max_capacity := td.max_capacity, is_shared := td.is_shared }
  let newChairs := (List.range td.max_capacity).map (fun i => { id := s.nextChairId + i, table_id := tid : Chair })
  ({ s with tables := s.tables ++ [newTable], chairs := s.chairs ++ newChairs, nextTableId := tid + 1, nextChairId := s.nextChairId + td.max_capacity }, tid)

/-- A partial table update for `Database.update_table`. -/
structure TableUpdate where
  table_number : Option Nat
  min_capacity : Option Nat
  max_capacity : Option Nat
  is_shared : Option Bool
deriving DecidableEq, Repr

/-- Application of the supplied fields to a table row. -/
def applyTableUpdate (t : RTable) (u : TableUpdate) : RTable :=
  { t with
    table_number := u.table_number.getD t.table_number,
    min_capacity := u.min_capacity.getD t.min_capacity,
    max_capacity := u.max_capacity.getD t.max_capacity,
    is_shared := u.is_shared.getD t.is_shared }

/-- The chair rows of one table, in insertion (creation) order. -/
def chairsOf (s : DB) (tid : Nat) : List Chair :=
  s.chairs.filter (fun c => c.table_id == tid)

/-- Embeds `Database.update_table`: update the row, then, when
`max_capacity` was supplied, insert the missing chairs or delete the chairs
listed after position `target_count` in the table's current chair list. -/
def update_table (s : DB) (tid : Nat) (u : TableUpdate) : DB :=
  let tables' := s.tables.map (fun t => if t.id == tid then applyTableUpdate t u else t)
  match u.max_capacity with
  | none => { s with tables := tables' }
  | some target =>
    let current := chairsOf s tid
    if current.length < target then
      let added := (List.range (target - current.length)).map (fun i => { id := s.nextChairId + i, table_id := tid : Chair })
      { s with tables := tables', chairs := s.chairs ++ added, nextChairId := s.nextChairId + (target - current.length) }
    else if current.length > target then
      let removedIds := (current.drop target).map (·.id)
      { s with tables := tables', chairs := s.chairs.filter (fun c => !(removedIds.contains c.id)) }
    else { s with tables := tables' }

/-! ### Concrete states used by counterexamples and witnesses -/

/-- The weekly hours row used by the concrete states: Monday 10:00–23:59,
last reservation start 23:00. -/
def mondayHours : HoursRow :=
  { day_of_week := 0, open_time := 600, close_time := 1439, last_reservation_time := 1380 }

/-- A store with one weekly hours row and nothing else. -/
def wrapCexDB : DB :=
  { tables := [], chairs := [], customers := [], reservations := [], assignments := [], hours := [mondayHours], specialHours := [], nextTableId := 1, nextChairId := 1, nextCustomerId := 1, nextReservationId := 1 }

/-- A store with a single shared table of capacity 8 and the weekly hours
row. -/
def raceDB : DB :=
  { tables := [{ id := 1, table_number := 1, min_capacity := 1, max_capacity := 8, is_shared := true }], chairs := [], customers := [], reservations := [], assignments := [], hours := [mondayHours], specialHours := [], nextTableId := 2, nextChairId := 1, nextCustomerId := 1, nextReservationId := 1 }

/-- First racing booking: party of 5 on the shared table, 18:00–19:30. -/
def raceReqA : BookingRequest :=
  { customer := { name := "Ann", email := some "ann@example.com", phone := none }, party_size := 5, rdate := 0, start_time := 1080, duration_minutes := 90, status := .pending, table_ids := [1] }

/-- Second racing booking: another party of 5 on the same table and window. -/
def raceReqB : BookingRequest :=
  { customer := { name := "Ben", email := some "ben@example.com", phone := none }, party_size := 5, rdate := 0, start_time := 1080, duration_minutes := 90, status := .pending, table_ids := [1] }

/-- An empty store used by the chair-tracking witness. -/
def chairsWitDB : DB :=
  { tables := [], chairs := [], customers := [], reservations := [], assignments := [], hours := [], specialHours := [], nextTableId := 1, nextChairId := 1, nextCustomerId := 1, nextReservationId := 1 }

/-- A four-seat table payload. -/
def chairsWitTD : TableData :=
  { table_number := 1, min_capacity := 2, max_capacity := 4, is_shared := false }

/-- The store after creating the four-seat table. -/
def chairsWitDB1 : DB := (create_table chairsWitDB chairsWitTD).1

/-- An update shrinking `max_capacity` to 2. -/
def chairsWitUpd : TableUpdate :=
  { table_number := none, min_capacity := none, max_capacity := some 2, is_shared := none }

/-- A booking request whose `table_ids` list is empty. -/
def emptyIdsReq : BookingRequest :=
  { customer := { name := "Bob", email := some "bob@example.com", phone := none }, party_size := 2, rdate := 0, start_time := 1080, duration_minutes := 90, status := .pending, table_ids := [] }

/-! ### Theorems -/

/-- C3: for half-open windows of positive duration the source's three-clause
overlap disjunction agrees with the two-clause condition, and a reservation
ending exactly at the request's start does not overlap. -/
theorem overlap3_equiv_overlap2 (rs re qs qe : Nat) (h1 : rs < re) (h2 : qs < qe) :
    overlap3 rs re qs qe = overlap2 rs re qs qe ∧
      (re = qs → overlap3 rs re qs qe = false) := by
  constructor
  · rw [Bool.eq_iff_iff]
    simp only [overlap3, overlap2, Bool.or_eq_true, Bool.and_eq_true, decide_eq_true_eq]
    omega
  · intro h
    rw [← Bool.not_eq_true]
    simp only [overlap3, Bool.or_eq_true, Bool.and_eq_true, decide_eq_true_eq]
    omega

/-- Witness for C3 at concrete windows: [60,120) against [90,150) and the
back-to-back pair [60,90) against [90,150). -/
theorem overlap3_equiv_overlap2_witness :
    overlap3 60 120 90 150 = overlap2 60 120 90 150 ∧ overlap3 60 90 90 150 = false :=
  ⟨(overlap3_equiv_overlap2 60 120 90 150 (by decide) (by decide)).1,
   (overlap3_equiv_overlap2 60 90 90 150 (by decide) (by decide)).2 rfl⟩

/-- C4 counterexample: on Monday hours 10:00–23:59 with last start 23:00, a
reservation at 23:00 for 120 minutes is accepted by the code (its end time
wraps to 01:00), although `start_time + duration_minutes ≤ close` fails for
the resolved triple. -/
theorem is_valid_time_unwrapped_end_cex :
    resolveHoursSpec wrapCexDB 0 = some (600, 1380, 1439) ∧
    is_valid_reservation_time wrapCexDB 0 1380 120 = true ∧
    ¬(1380 + 120 ≤ 1439) := by decide

/-- Reduction of the three comparison guards shared by both branches of
`is_valid_reservation_time`. -/
theorem validTriple_iff (o l c st e : Nat) :
    (if st < o then false else if st > l then false else if e > c then false else true) = true
      ↔ (o ≤ st ∧ st ≤ l ∧ e ≤ c) := by
  split_ifs <;> simp <;> omega

/-- C4 (amended): `is_valid_reservation_time` accepts exactly when the
resolution procedure yields a triple and `open ≤ start`,
`start ≤ last_reservation`, and the end time computed modulo 24 hours is at
most `close`. -/
theorem is_valid_time_iff_resolved (s : DB) (d st dur : Nat) :
    is_valid_reservation_time s d st dur = true ↔
      ∃ o l c, resolveHoursSpec s d = some (o, l, c) ∧
        o ≤ st ∧ st ≤ l ∧ wrapTime st dur ≤ c := by
  unfold is_valid_reservation_time resolveHoursSpec
  rcases h : s.specialHours.find? (fun row => row.sdate == d) with _ | row
  · rcases h2 : s.hours.find? (fun row => row.day_of_week == d % 7) with _ | row2
    · simp [h, h2]
    · rw [h, h2]
      rw [validTriple_iff]
      constructor
      · intro hv
        exact ⟨row2.open_time, row2.last_reservation_time, row2.close_time, rfl,
          hv.1, hv.2.1, hv.2.2⟩
      · rintro ⟨o, l, c, heq, h1, h2', h3⟩
        simp only [Option.some.injEq, Prod.mk.injEq] at heq
        obtain ⟨rfl, rfl, rfl⟩ := heq
        exact ⟨h1, h2', h3⟩
  · rw [h]
    by_cases hc : row.is_closed
    · simp [hc]
    · simp only [hc, Bool.false_eq_true, if_false]
      rw [validTriple_iff]
      constructor
      · intro hv
        exact ⟨row.open_time, row.last_reservation_time, row.close_time, rfl,
          hv.1, hv.2.1, hv.2.2⟩
      · rintro ⟨o, l, c, heq, h1, h2', h3⟩
        simp only [Option.some.injEq, Prod.mk.injEq] at heq
        obtain ⟨rfl, rfl, rfl⟩ := heq
        exact ⟨h1, h2', h3⟩

/-- C5: with its defaulted `conn` argument — the truthy typing expression
`Optional[Connection]` — `get_reservation_by_id` raises without touching the
pool, so `update_reservation_status` and the single-reservation `GET`
endpoint never return a reservation. -/
theorem default_conn_always_fails :
    (∀ (s : DB) (rid : Nat),
      get_reservation_by_id s rid .typingOptionalConnection =
        (.error .attributeError, false)) ∧
    (∀ (s : DB) (rid : Nat) (st : RStatus) (r : ResFull),
      (update_reservation_status s rid st).2 ≠ .ok (some r)) ∧
    (∀ (s : DB) (rid : Nat) (r : ResFull), endpoint_get_reservation s rid ≠ .ok r) := by
  refine ⟨fun s rid => rfl, fun s rid st r => ?_, fun s rid r => ?_⟩
  · unfold update_reservation_status
    split
    · intro hcontra
      exact Except.noConfusion hcontra
    · intro hcontra
      simp at hcontra
  · intro hcontra
    exact Except.noConfusion hcontra

/-- Witness for C5: the defaulted call fails on a concrete store without
reading the pool. -/
theorem default_conn_always_fails_witness :
    get_reservation_by_id wrapCexDB 1 .typingOptionalConnection =
      (.error .attributeError, false) :=
  default_conn_always_fails.1 wrapCexDB 1

/-- C7: every call of the `PUT /reservations/{id}` endpoint fails with the
propagated `AttributeError` (HTTP 500) from the defaulted `conn` argument of
`get_reservation_by_id`, before any validation or change — so no reschedule,
table-preserving or not, ever succeeds. -/
theorem update_endpoint_always_errors :
    ∀ (s : DB) (rid : Nat) (u : UpdateReq),
      endpoint_update_reservation s rid u = .error .internalError :=
  fun _ _ _ => rfl

/-- Witness for C7: a concrete reschedule that only moves the start time
while keeping the same table still errors. -/
theorem update_endpoint_always_errors_witness :
    endpoint_update_reservation raceDB 1
      { party_size := none, rdate := none, start_time := some 1140,
        duration_minutes := none, status := none, table_ids := some [1] } =
      .error .internalError :=
  update_endpoint_always_errors raceDB 1 _

/-- C2: the check-then-commit interleaving of two bookings.  Both requests
pass the endpoint's validity and availability checks against the initial
state; the commit phase re-validates nothing and never raises, so both
transactions commit and the shared table ends up carrying overlapping
parties summing to 10 on a table of capacity 8 — no conflict error is ever
surfaced. -/
theorem booking_race_overallocates_shared_table :
    is_valid_reservation_time raceDB 0 1080 90 = true ∧
    validateBookingTables raceDB raceReqA = true ∧
    validateBookingTables raceDB raceReqB = true ∧
    overlappingPartySum
      ((db_create_reservation (db_create_reservation raceDB raceReqA).1 raceReqB).1)
      1 0 1080 (wrapTime 1080 90) = 10 ∧
    (∃ t ∈ ((db_create_reservation (db_create_reservation raceDB raceReqA).1 raceReqB).1).tables,
      t.id = 1 ∧ t.is_shared = true ∧
        t.max_capacity <
          overlappingPartySum
            ((db_create_reservation (db_create_reservation raceDB raceReqA).1 raceReqB).1)
            1 0 1080 (wrapTime 1080 90)) := by decide

/-- C6: booking with an empty `table_ids` list is not rejected: the endpoint
returns success, the customer row (id 7) and the reservation row (id 42) are
committed, and the reservation holds zero tables. -/
theorem empty_table_ids_booking_commits :
    (endpoint_create_reservation wrapCexDB emptyIdsReq).toOption.map
      (fun p => (p.2, p.1.reservations.map (·.id), p.1.assignments,
        p.1.customers.map (·.id))) = some (1, [1], [], [1]) := by decide

/-- C10: the availability list is sorted ascending by distance of
`min_capacity` from the party size, ties broken by table number. -/
theorem avail_sorted_by_fit_then_number (s : DB) (p d st dur : Nat) :
    List.Pairwise (fun a b : RTable =>
      natAbsDiff a.min_capacity p < natAbsDiff b.min_capacity p ∨
        (natAbsDiff a.min_capacity p = natAbsDiff b.min_capacity p ∧
          a.table_number ≤ b.table_number))
      (get_available_tables s p d st dur) := by
  haveI htrans : IsTrans RTable (fun a b => availLE p a b = true) := by
    refine ⟨fun a b c hab hbc => ?_⟩
    simp only [availLE, Bool.or_eq_true, Bool.and_eq_true, decide_eq_true_eq,
      beq_iff_eq] at hab hbc ⊢
    omega
  haveI htot : IsTotal RTable (fun a b => availLE p a b = true) := by
    refine ⟨fun a b => ?_⟩
    simp only [availLE, Bool.or_eq_true, Bool.and_eq_true, decide_eq_true_eq, beq_iff_eq]
    omega
  unfold get_available_tables
  exact (List.sorted_insertionSort _ _).imp (fun {a b} h => by
    simpa only [availLE, Bool.or_eq_true, Bool.and_eq_true, decide_eq_true_eq,
      beq_iff_eq] using h)

/-- Lower-casing never turns a character into whitespace or back. -/
theorem isPySpace_lowerChar (c : Char) : isPySpace (lowerChar c) = isPySpace c := by
  unfold lowerChar
  split <;> rfl

/-- Stripping commutes with lower-casing on character lists. -/
theorem stripChars_map_lowerChar (l : List Char) :
    stripChars (l.map lowerChar) = (stripChars l).map lowerChar := by
  have hdw : ∀ m : List Char,
      (m.map lowerChar).dropWhile isPySpace = (m.dropWhile isPySpace).map lowerChar := by
    intro m
    have hfun : (isPySpace ∘ lowerChar) = isPySpace := by
      funext c
      exact isPySpace_lowerChar c
    rw [List.dropWhile_map, hfun]
  unfold stripChars
  rw [hdw, ← List.map_reverse, hdw, ← List.map_reverse]

/-- Stripping commutes with lower-casing on strings, so the code's
`name.lower().strip()` equals the specification's "lower-cased, trimmed
name". -/
theorem pyStrip_pyLower (s : String) : pyStrip (pyLower s) = pyLower (pyStrip s) := by
  unfold pyStrip pyLower
  exact congrArg String.mk (stripChars_map_lowerChar s.data)

/-- C8: with neither email nor phone, a party under six gets the
deterministic placeholder `guest-<first 8 md5 hex chars of the lower-cased,
trimmed name>@restaurant.local`; names equal up to case and surrounding
whitespace give the same placeholder; a party of six or more gets no
placeholder at all. -/
theorem placeholder_contact_policy :
    (∀ (cd : CustomerData) (party_size : Nat),
      hasVal cd.email = false → hasVal cd.phone = false →
      (party_size < 6 → (resolveContact cd party_size).email =
        some ("guest-" ++
          String.mk ((md5Hex (utf8Encode (pyLower (pyStrip cd.name)))).data.take 8) ++
          "@restaurant.local")) ∧
      (6 ≤ party_size → resolveContact cd party_size = cd)) ∧
    (∀ n1 n2 : String, pyLower (pyStrip n1) = pyLower (pyStrip n2) →
      placeholderEmail n1 = placeholderEmail n2) := by
  constructor
  · intro cd party_size h1 h2
    constructor
    · intro hlt
      simp only [resolveContact, h1, h2, hlt, placeholderEmail, pyStrip_pyLower]
      simp
    · intro hge
      have : ¬(party_size < 6) := by omega
      simp [resolveContact, this]
  · intro n1 n2 h
    unfold placeholderEmail
    rw [pyStrip_pyLower, pyStrip_pyLower, h]

set_option maxRecDepth 40000 in
/-- Witness for C8: a walk-in party of three named " Alice " receives the
md5-derived placeholder, identical to the one for "ALICE". -/
theorem placeholder_contact_policy_witness :
    (resolveContact { name := " Alice ", email := none, phone := none } 3).email =
      some "guest-6384e2b2@restaurant.local" ∧
    placeholderEmail " Alice " = placeholderEmail "ALICE" := by
  constructor
  · rw [(placeholder_contact_policy.1
      { name := " Alice ", email := none, phone := none } 3 rfl rfl).1 (by decide)]
    decide
  · exact placeholder_contact_policy.2 " Alice " "ALICE" (by decide)

/-- Filtering out the elements listed from position `M` on keeps exactly the
first `M` elements, when ids are distinct. -/
theorem filter_not_mem_drop_ids (l : List Chair) (M : Nat)
    (h : (l.map (·.id)).Nodup) :
    l.filter (fun c => !(((l.drop M).map (·.id)).contains c.id)) = l.take M := by
  set T := l.take M with hTdef
  set D := l.drop M with hDdef
  have h' : ((T ++ D).map (·.id)).Nodup := by
    rw [hTdef, hDdef, List.take_append_drop]
    exact h
  rw [List.map_append] at h'
  obtain ⟨hT, hD, hdisj⟩ := List.nodup_append.mp h'
  have hl : l = T ++ D := by rw [hTdef, hDdef, List.take_append_drop]
  rw [hl, List.filter_append]
  have h1 : T.filter (fun c => !((D.map (·.id)).contains c.id)) = T := by
    apply List.filter_eq_self.mpr
    intro c hc
    have hcid : c.id ∈ T.map (·.id) := List.mem_map.mpr ⟨c, hc, rfl⟩
    have hnot : c.id ∉ D.map (·.id) := fun hmem => hdisj hcid hmem
    simp [List.contains, List.elem_iff, hnot]
  have h2 : D.filter (fun c => !((D.map (·.id)).contains c.id)) = [] := by
    apply List.filter_eq_nil_iff.mpr
    intro c hc
    have hcid : c.id ∈ D.map (·.id) := List.mem_map.mpr ⟨c, hc, rfl⟩
    simp [List.contains, List.elem_iff, hcid]
  rw [h1, h2, List.append_nil]

/-- C9: creating a table makes exactly `max_capacity` chairs; updating keeps
the chair count equal to the (possibly updated) `max_capacity`, keeping the
oldest chairs when shrinking and appending exactly the difference when
growing. -/
theorem chairs_track_max_capacity :
    (∀ (s : DB) (td : TableData),
      (∀ c ∈ s.chairs, c.table_id ≠ s.nextTableId) →
      (chairsOf (create_table s td).1 (create_table s td).2).length = td.max_capacity) ∧
    (∀ (s : DB) (tid : Nat) (u : TableUpdate) (t : RTable),
      s.tables.find? (fun tb => tb.id == tid) = some t →
      (s.chairs.map (·.id)).Nodup →
      (chairsOf s tid).length = t.max_capacity →
      ((chairsOf (update_table s tid u) tid).length = (applyTableUpdate t u).max_capacity ∧
        (∀ M, u.max_capacity = some M →
          (M ≤ (chairsOf s tid).length →
            chairsOf (update_table s tid u) tid = (chairsOf s tid).take M) ∧
          ((chairsOf s tid).length ≤ M →
            chairsOf (update_table s tid u) tid =
              chairsOf s tid ++ (List.range (M - (chairsOf s tid).length)).map
                (fun i => { id := s.nextChairId + i, table_id := tid }))))) := by
  constructor
  · intro s td hfresh
    have h1 : s.chairs.filter (fun c => c.table_id == s.nextTableId) = [] := by
      apply List.filter_eq_nil_iff.mpr
      intro c hc
      simp only [beq_iff_eq]
      exact hfresh c hc
    have h2 : List.filter (fun c => c.table_id == s.nextTableId)
        ((List.range td.max_capacity).map
          (fun i => ({ id := s.nextChairId + i, table_id := s.nextTableId } : Chair))) =
        (List.range td.max_capacity).map
          (fun i => ({ id := s.nextChairId + i, table_id := s.nextTableId } : Chair)) := by
      apply List.filter_eq_self.mpr
      intro c hc
      obtain ⟨i, _, rfl⟩ := List.mem_map.mp hc
      simp
    simp [create_table, chairsOf, List.filter_append, h1, h2]
  · intro s tid u t _hfind hnodup hinv
    have hnew : ∀ n k : Nat,
        List.filter (fun c => c.table_id == tid)
          ((List.range n).map (fun i => ({ id := k + i, table_id := tid } : Chair))) =
          (List.range n).map (fun i => ({ id := k + i, table_id := tid } : Chair)) := by
      intro n k
      apply List.filter_eq_self.mpr
      intro c hc
      obtain ⟨i, _, rfl⟩ := List.mem_map.mp hc
      simp
    rcases hmax : u.max_capacity with _ | M
    · have hsame : chairsOf (update_table s tid u) tid = chairsOf s tid := by
        simp [update_table, hmax, chairsOf]
      have happ : (applyTableUpdate t u).max_capacity = t.max_capacity := by
        simp [applyTableUpdate, hmax]
      refine ⟨by rw [hsame, hinv, happ], ?_⟩
      intro M hM
      exact absurd hM (by simp)
    · have happ : (applyTableUpdate t u).max_capacity = M := by
        simp [applyTableUpdate, hmax]
      by_cases hlt : (chairsOf s tid).length < M
      · have hgoal : chairsOf (update_table s tid u) tid =
            chairsOf s tid ++ (List.range (M - (chairsOf s tid).length)).map
              (fun i => { id := s.nextChairId + i, table_id := tid }) := by
          simp only [update_table, hmax, if_pos hlt]
          unfold chairsOf
          simp only [List.filter_append, hnew]
        refine ⟨?_, ?_⟩
        · rw [hgoal, happ, List.length_append, List.length_map, List.length_range]
          omega
        · intro M' hM'
          obtain rfl : M' = M := (Option.some.inj hM').symm
          refine ⟨fun hle => absurd hle (by omega), fun _ => hgoal⟩
      · by_cases hgt : M < (chairsOf s tid).length
        · have hgoal : chairsOf (update_table s tid u) tid = (chairsOf s tid).take M := by
            simp only [update_table, hmax, if_neg hlt, if_pos hgt]
            unfold chairsOf
            rw [List.filter_comm]
            apply filter_not_mem_drop_ids
            exact ((List.filter_sublist s.chairs).map _).nodup hnodup
          refine ⟨?_, ?_⟩
          · rw [hgoal, happ, List.length_take]
            omega
          · intro M' hM'
            obtain rfl : M' = M := (Option.some.inj hM').symm
            refine ⟨fun _ => hgoal, fun hle => absurd hle (by omega)⟩
        · have heq : (chairsOf s tid).length = M := by omega
          have hsame : chairsOf (update_table s tid u) tid = chairsOf s tid := by
            simp only [update_table, hmax, if_neg hlt, if_neg hgt]
            rfl
          refine ⟨by rw [hsame, heq, happ], ?_⟩
          intro M' hM'
          obtain rfl : M' = M := (Option.some.inj hM').symm
          refine ⟨fun _ => ?_, fun _ => ?_⟩
          · rw [hsame, ← heq, List.take_length]
          · rw [hsame, heq]
            simp

/-- Witness for C9: creating a four-seat table yields four chairs; shrinking
its capacity to two keeps exactly the two oldest chairs. -/
theorem chairs_track_max_capacity_witness :
    (chairsOf (create_table chairsWitDB chairsWitTD).1
      (create_table chairsWitDB chairsWitTD).2).length = 4 ∧
    chairsOf (update_table chairsWitDB1 1 chairsWitUpd) 1 =
      (chairsOf chairsWitDB1 1).take 2 := by
  constructor
  · exact chairs_track_max_capacity.1 chairsWitDB chairsWitTD (by decide)
  · exact ((chairs_track_max_capacity.2 chairsWitDB1 1 chairsWitUpd
      { id := 1, table_number := 1, min_capacity := 2, max_capacity := 4, is_shared := false }
      (by decide) (by decide) (by decide)).2 2 rfl).1 (by decide)

/-- Membership in the `booked_tables` CTE, read as an existential over
reservations and assignments. -/
theorem mem_bookedTables_iff (s : DB) (d qs qe tid : Nat) :
    tid ∈ bookedTables s d qs qe ↔
      ∃ r ∈ s.reservations, matchesWindow r d qs qe = true ∧
        ∃ a ∈ s.assignments, a.reservation_id = r.id ∧ a.table_id = tid := by
  unfold bookedTables
  simp only [List.mem_map, List.mem_filter, List.any_eq_true, Bool.and_eq_true, beq_iff_eq]
  constructor
  · rintro ⟨a, ⟨ha, r, hr, hid, hm⟩, htid⟩
    exact ⟨r, hr, hm, a, ha, hid.symm, htid⟩
  · rintro ⟨r, hr, hm, a, ha, hid, htid⟩
    exact ⟨a, ⟨ha, r, hr, hid.symm, hm⟩, htid⟩

/-- Splitting a filtered sum along a disjunction of mutually exclusive
predicates. -/
theorem sum_filter_or_disjoint (R : List Reservation) (p q : Reservation → Bool)
    (h : ∀ r, ¬(p r = true ∧ q r = true)) :
    ((R.filter (fun r => p r || q r)).map (·.party_size)).sum =
      ((R.filter p).map (·.party_size)).sum + ((R.filter q).map (·.party_size)).sum := by
  induction R with
  | nil => rfl
  | cons r R ih =>
    cases hp : p r
    · cases hq : q r
      · simpa [List.filter_cons, hp, hq] using ih
      · simp only [List.filter_cons, hp, hq, Bool.false_or, List.map_cons, List.sum_cons]
        simp [ih]
        omega
    · have hq : q r = false := by
        cases hq : q r
        · rfl
        · exact absurd ⟨hp, hq⟩ (h r)
      simp only [List.filter_cons, hp, hq, Bool.true_or, List.map_cons, List.sum_cons]
      simp [ih]
      omega

/-- Summing per reservation id over a duplicate-free id list equals one
filtered sum over the reservations whose id is listed. -/
theorem sum_over_id_list (R : List Reservation) (P : Reservation → Bool) :
    ∀ L : List Nat, L.Nodup →
      (L.map (fun l =>
        ((R.filter (fun r => r.id == l && P r)).map (·.party_size)).sum)).sum =
      ((R.filter (fun r => P r && L.contains r.id)).map (·.party_size)).sum := by
  intro L
  induction L with
  | nil =>
    intro _
    have hnil : R.filter (fun r => P r && ([] : List Nat).contains r.id) = [] := by
      apply List.filter_eq_nil_iff.mpr
      intro r _
      simp [List.contains]
    simp [hnil]
  | cons l L ih =>
    intro hnd
    obtain ⟨hl, hndL⟩ := List.nodup_cons.mp hnd
    have hsplit : R.filter (fun r => P r && (l :: L).contains r.id) =
        R.filter (fun r => (P r && r.id == l) || (P r && L.contains r.id)) := by
      apply List.filter_congr
      intro r _
      rw [List.contains_cons, Bool.and_or_distrib_left]
    have hdis : ∀ r : Reservation,
        ¬((P r && r.id == l) = true ∧ (P r && L.contains r.id) = true) := by
      rintro r ⟨h1, h2⟩
      rw [Bool.and_eq_true, beq_iff_eq] at h1
      rw [Bool.and_eq_true] at h2
      have hrl : r.id ∈ L := List.elem_iff.mp h2.2
      rw [h1.2] at hrl
      exact hl hrl
    rw [List.map_cons, List.sum_cons, ih hndL, hsplit,
      sum_filter_or_disjoint R _ _ hdis,
      List.filter_congr (fun r _ => Bool.and_comm (r.id == l) (P r))]

/-- The `LEFT JOIN`/`GROUP BY`/`SUM` computation of `get_available_tables`
computes, for each table, exactly the specification-level sum of party sizes
of its matching reservations, as long as no `(reservation, table)`
assignment pair is duplicated. -/
theorem sharedLoad_eq_overlappingPartySum (s : DB) (tid d qs qe : Nat)
    (hnd : s.assignments.Nodup) :
    sharedLoad s tid d qs qe = overlappingPartySum s tid d qs qe := by
  unfold sharedLoad overlappingPartySum
  have hA : (s.assignments.filter (fun a => a.table_id == tid)).Nodup := hnd.filter _
  have hL : ((s.assignments.filter (fun a => a.table_id == tid)).map
      (·.reservation_id)).Nodup := by
    rw [List.nodup_map_iff_inj_on hA]
    intro x hx y hy hxy
    have hxt : x.table_id = tid := by simpa using (List.mem_filter.mp hx).2
    have hyt : y.table_id = tid := by simpa using (List.mem_filter.mp hy).2
    cases x
    cases y
    simp_all
  have hmm : (s.assignments.filter (fun a => a.table_id == tid)).map
      (fun a => ((s.reservations.filter
        (fun r => r.id == a.reservation_id && matchesWindow r d qs qe)).map
          (·.party_size)).sum) =
      ((s.assignments.filter (fun a => a.table_id == tid)).map (·.reservation_id)).map
      (fun l => ((s.reservations.filter
        (fun r => r.id == l && matchesWindow r d qs qe)).map (·.party_size)).sum) := by
    rw [List.map_map]
    rfl
  rw [hmm, sum_over_id_list s.reservations (fun r => matchesWindow r d qs qe) _ hL]
  have hcontains : ∀ r : Reservation,
      (((s.assignments.filter (fun a => a.table_id == tid)).map
        (·.reservation_id)).contains r.id) =
      s.assignments.any (fun a => a.reservation_id == r.id && a.table_id == tid) := by
    intro r
    rw [Bool.eq_iff_iff]
    constructor
    · intro hc
      obtain ⟨a, haf, haid⟩ := List.mem_map.mp (List.elem_iff.mp hc)
      obtain ⟨ha, hat⟩ := List.mem_filter.mp haf
      apply List.any_eq_true.mpr
      refine ⟨a, ha, ?_⟩
      rw [Bool.and_eq_true, beq_iff_eq, beq_iff_eq]
      exact ⟨haid, by simpa using hat⟩
    · intro hany
      obtain ⟨a, ha, hcond⟩ := List.any_eq_true.mp hany
      rw [Bool.and_eq_true, beq_iff_eq, beq_iff_eq] at hcond
      apply List.elem_iff.mpr
      apply List.mem_map.mpr
      exact ⟨a, List.mem_filter.mpr ⟨ha, by simp [hcond.2]⟩, hcond.1⟩
  apply congrArg
  apply congrArg
  apply List.filter_congr
  intro r _
  rw [hcontains r]

/-- C1: a table is in the `get_available_tables` result exactly when it fits
the party between its capacities, a non-shared table has no assignment whose
active reservation matches the requested window on the date, and a shared
table leaves at least `party_size` of `max_capacity` after subtracting the
party sizes of its matching reservations.  The hypothesis rules out
duplicate `(reservation, table)` assignment pairs, the uniqueness invariant
of the join table. -/
theorem avail_membership_iff (s : DB) (p d st dur : Nat) (t : RTable)
    (hnd : s.assignments.Nodup) :
    t ∈ get_available_tables s p d st dur ↔
      (t ∈ s.tables ∧ t.min_capacity ≤ p ∧ p ≤ t.max_capacity ∧
        (t.is_shared = false →
          ∀ r ∈ s.reservations,
            (∃ a ∈ s.assignments, a.reservation_id = r.id ∧ a.table_id = t.id) →
            matchesWindow r d st (wrapTime st dur) = false) ∧
        (t.is_shared = true →
          (p : Int) ≤ (t.max_capacity : Int) -
            (overlappingPartySum s t.id d st (wrapTime st dur) : Int))) := by
  unfold get_available_tables
  rw [List.Perm.mem_iff (List.perm_insertionSort _ _), List.mem_filter,
    sharedLoad_eq_overlappingPartySum s t.id d st (wrapTime st dur) hnd]
  simp only [Bool.and_eq_true, Bool.or_eq_true, Bool.not_eq_true', decide_eq_true_eq,
    ge_iff_le]
  constructor
  · rintro ⟨hmem, ⟨hbk, hmin, hmaxp⟩, hcap⟩
    refine ⟨hmem, hmin, hmaxp, ?_, ?_⟩
    · intro hshF r hr hex
      rcases hbk with hbk | hbk
      · by_contra hm
        rw [Bool.not_eq_false] at hm
        have hmemb : t.id ∈ bookedTables s d st (wrapTime st dur) :=
          (mem_bookedTables_iff s d st (wrapTime st dur) t.id).mpr ⟨r, hr, hm, hex⟩
        simp [List.elem_eq_mem, hmemb] at hbk
      · rw [hshF] at hbk
        exact Bool.noConfusion hbk
    · intro hshT
      rcases hcap with hcap | hcap
      · rw [hshT] at hcap
        exact Bool.noConfusion hcap
      · exact hcap
  · rintro ⟨hmem, hmin, hmaxp, hns, hs⟩
    refine ⟨hmem, ⟨?_, hmin, hmaxp⟩, ?_⟩
    · cases hsh : t.is_shared
      · left
        cases hbk : (bookedTables s d st (wrapTime st dur)).contains t.id
        · rfl
        · obtain ⟨r, hr, hm, hex⟩ :=
            (mem_bookedTables_iff s d st (wrapTime st dur) t.id).mp (List.elem_iff.mp hbk)
          rw [hns hsh r hr hex] at hm
          exact Bool.noConfusion hm
      · exact Or.inr rfl
    · cases hsh : t.is_shared
      · exact Or.inl rfl
      · exact Or.inr (hs hsh)

/-- Witness for C1: the shared table of `raceDB` is available to a party of
five at 18:00. -/
theorem avail_membership_iff_witness :
    (⟨1, 1, 1, 8, true⟩ : RTable) ∈ get_available_tables raceDB 5 0 1080 90 :=
  (avail_membership_iff raceDB 5 0 1080 90 ⟨1, 1, 1, 8, true⟩ (by decide)).mpr (by decide)

end Rezzy
